import Mathlib

/-!
Shallow embedding of the AI-RAG-WeatherBot routing core
(`ai_rag_weather/graph/nodes.py`, `ai_rag_weather/graph/graph.py`,
`ai_rag_weather/weather/client.py`) and proofs about the frozen claims.

Strings are modelled over their character lists; Python's regex character
classes are modelled at ASCII precision (the patterns in the source only use
ASCII classes).  Python floats that originate from decimal JSON literals are
modelled as exact rationals, and `str(float)` as the shortest decimal
rendering, which agrees with CPython on every decimal-literal value the
claims mention.
-/

set_option maxRecDepth 100000

namespace RagWeatherBot

/-! ### Character classes (ASCII model of the classes used by the source regexes) -/

/-- ASCII apostrophe, kept as a named character. -/
def apos : Char := Char.ofNat 39

/-- Right single quotation mark U+2019, which appears in the source patterns. -/
def rsq : Char := Char.ofNat 8217

/-- Python regex word character `\w` (ASCII part): letters, digits, underscore. -/
def isWordChar (c : Char) : Bool := c.isAlphanum || c = '_'

/-- Python regex whitespace `\s` (ASCII part) and `str.split` separators. -/
def isPySpace (c : Char) : Bool :=
  c = ' ' || c = '\t' || c = '\n' || c = '\r' || c = '\x0b' || c = '\x0c'

/-- The class `[A-Z]` (case-sensitive). -/
def isUpperAZ (c : Char) : Bool := 'A' ≤ c && c ≤ 'Z'

/-- The class `[A-Z]` under `re.IGNORECASE`, i.e. any ASCII letter. -/
def isAsciiLetter (c : Char) : Bool := c.isAlpha

/-- The class of characters allowed after the first letter of a city word in
the source patterns. -/
def isCityChar (c : Char) : Bool :=
  c.isAlpha || c = '-' || c = '.' || c = rsq || c = apos

/-! ### difflib.SequenceMatcher (no junk: the second sequence is always one of
the keywords, whose length is far below the 200-element autojunk threshold,
so `b2j` is the plain index map and the junk extension loops are no-ops) -/

structure MatchBlock where
  ai : Nat
  bi : Nat
  size : Nat
deriving DecidableEq

/-- One row of the `j2len` dynamic program of `find_longest_match`: entry `j`
is the length of the common run ending at `a[i]`/`b[j]` and lying inside
`[blo, bhi)`. -/
def nextRow (ai : Char) (b : List Char) (blo bhi : Nat) (old : List Nat) : List Nat :=
  (List.range b.length).map fun j =>
    if blo ≤ j ∧ j < bhi ∧ b.getD j ' ' = ai then
      (if j = 0 then 0 else old.getD (j - 1) 0) + 1
    else 0

/-- Scan a row in increasing `j` order, updating the best block exactly when
the run is strictly longer, as `find_longest_match` does. -/
def scanBest (i : Nat) (row : List Nat) (best : MatchBlock) : MatchBlock :=
  row.enum.foldl
    (fun bst jk => if bst.size < jk.2 then ⟨i + 1 - jk.2, jk.1 + 1 - jk.2, jk.2⟩ else bst)
    best

/-- `SequenceMatcher.find_longest_match` restricted to `a[alo:ahi]`, `b[blo:bhi]`. -/
def findLongestMatch (a b : List Char) (alo ahi blo bhi : Nat) : MatchBlock :=
  ((List.range' alo (ahi - alo)).foldl
    (fun acc i =>
      let row := nextRow (a.getD i ' ') b blo bhi acc.1
      (row, scanBest i row acc.2))
    (List.replicate b.length 0, (⟨alo, blo, 0⟩ : MatchBlock))).2

/-- Total size of `get_matching_blocks`, by the recursive decomposition around
the longest match.  The fuel argument dominates the recursion depth, which is
bounded by the sum of the two range widths. -/
def matchingTotalAux (a b : List Char) : Nat → Nat → Nat → Nat → Nat → Nat
  | 0, _, _, _, _ => 0
  | fuel + 1, alo, ahi, blo, bhi =>
    let m := findLongestMatch a b alo ahi blo bhi
    if m.size = 0 then 0
    else
      matchingTotalAux a b fuel alo m.ai blo m.bi + m.size +
        matchingTotalAux a b fuel (m.ai + m.size) ahi (m.bi + m.size) bhi

def matchingTotal (a b : List Char) : Nat :=
  matchingTotalAux a b (a.length + b.length + 1) 0 a.length 0 b.length

/-- `SequenceMatcher(None, a, b).ratio()`, as an exact rational.  The values
`2*M/T` have denominators tiny enough that comparison with `0.85` agrees with
the CPython float comparison. -/
def smRatio (a b : List Char) : ℚ :=
  if a.length + b.length = 0 then 1
  else (2 * matchingTotal a b : ℚ) / (a.length + b.length)

/-! ### Intent classification (`_fuzzy_contains`, `_classify_intent`) -/

/-- `str.lower`, ASCII model. -/
def pyLower (l : List Char) : List Char := l.map Char.toLower

/-- `str.split()` with no separator: split on whitespace runs, dropping empties. -/
def pySplitAux : List Char → List Char → List (List Char)
  | [], acc => if acc.isEmpty then [] else [acc.reverse]
  | c :: rest, acc =>
    if isPySpace c then
      if acc.isEmpty then pySplitAux rest [] else acc.reverse :: pySplitAux rest []
    else pySplitAux rest (c :: acc)

def pySplit (l : List Char) : List (List Char) := pySplitAux l []

/-- The `_WEATHER_HINTS` tuple. -/
def weatherHints : List (List Char) :=
  ["weather".toList, "temperature".toList, "temp".toList, "forecast".toList,
   "rain".toList, "humidity".toList, "wind".toList, "snow".toList, "sun".toList,
   "cloud".toList, "visibility".toList]

/-- The default similarity threshold `0.85` of `_fuzzy_contains`. -/
def fuzzyThreshold : ℚ := 17 / 20

/-- The comparison `SequenceMatcher(None, a, b).ratio() >= 0.85` as an exact
integer test: `2M/T ≥ 17/20` iff `17·T ≤ 40·M`, with difflib's
empty-against-empty ratio of `1`.  At the denominators reachable here the
exact comparison agrees with CPython's float comparison
(`ratioGeThreshold_iff` relates it to `smRatio`). -/
def ratioGeThreshold (a b : List Char) : Bool :=
  let T := a.length + b.length
  if T = 0 then true else decide (17 * T ≤ 40 * matchingTotal a b)

/-- `_fuzzy_contains(text, keywords)`: some word of the lowercased text has
ratio at least the threshold against some keyword. -/
def fuzzyContains (text : List Char) (keywords : List (List Char)) : Bool :=
  (pySplit (pyLower text)).any fun w =>
    keywords.any fun kw => ratioGeThreshold w kw

/-- Drop the literal pattern `p` from the front of `l` (case-sensitive). -/
def dropPre : List Char → List Char → Option (List Char)
  | [], l => some l
  | _ :: _, [] => none
  | p :: ps, c :: l => if c = p then dropPre ps l else none

/-- Drop the literal pattern `p` from the front of `l`, ASCII case-insensitive. -/
def dropPreCI : List Char → List Char → Option (List Char)
  | [], l => some l
  | _ :: _, [] => none
  | p :: ps, c :: l => if c.toLower = p.toLower then dropPreCI ps l else none

/-- Alternatives generated by the group `(what('?s)?|how)` of the intent regex. -/
def whatHowAlts : List (List Char) :=
  ["what".toList, "what".toList ++ [apos, 's'], "what".toList ++ ['s'], "how".toList]

/-- Alternatives generated by the optional group `( is|s|’s)?`. -/
def linkAlts : List (List Char) :=
  [[], " is".toList, ['s'], [rsq, 's']]

/-- Alternatives of the final group `(weather|temperature)`. -/
def subjAlts : List (List Char) :=
  ["weather".toList, "temperature".toList]

/-- Match one concrete expansion of the intent regex at the current position
and check the trailing word boundary. -/
def matchLitThenBoundary (pat l : List Char) : Bool :=
  match dropPre pat l with
  | none => false
  | some [] => true
  | some (c :: _) => !isWordChar c

/-- Match `\b(what('?s)?|how)( is|s|’s)? the (weather|temperature)\b` at the
current position.  All alternatives of the first group start with a word
character, so the leading boundary holds exactly when the previous character
is not a word character. -/
def matchWeatherRegexAt (l : List Char) (prevIsWord : Bool) : Bool :=
  !prevIsWord &&
    whatHowAlts.any fun p1 =>
      linkAlts.any fun p2 =>
        subjAlts.any fun p3 =>
          matchLitThenBoundary (p1 ++ p2 ++ " the ".toList ++ p3) l

/-- `re.search` for a boolean pattern: try every position left to right,
tracking whether the previous character is a word character. -/
def searchBool (f : List Char → Bool → Bool) : List Char → Bool → Bool
  | [], prev => f [] prev
  | c :: rest, prev => f (c :: rest) prev || searchBool f rest (isWordChar c)

def regexWeatherSearch (l : List Char) : Bool :=
  searchBool matchWeatherRegexAt l false

/-- `_classify_intent(text)`, with `t = text.lower()` inlined. -/
def classifyIntent (text : String) : String :=
  if fuzzyContains (pyLower text.toList) weatherHints then "weather"
  else if regexWeatherSearch (pyLower text.toList) then "weather"
  else "doc_qa"

/-! ### City extraction (`_extract_city`) -/

/-- Match one city word `first-class letter` followed by one or more city
characters, maximal-munch (the classes are disjoint from whitespace, so the
greedy regex quantifiers behave as maximal munch here). -/
def takeCityWordBy (first : Char → Bool) (l : List Char) : Option (List Char × List Char) :=
  match l with
  | [] => none
  | c :: rest =>
    if first c then
      if (rest.takeWhile isCityChar).isEmpty then none
      else some (c :: rest.takeWhile isCityChar, rest.drop (rest.takeWhile isCityChar).length)
    else none

/-- The `(?:\s+<word>)*` loop of the city capture: repeatedly take a
whitespace run followed by another city word, committing each full iteration. -/
def cityLoopAux (first : Char → Bool) : Nat → List Char → List Char → List Char × List Char
  | 0, acc, rest => (acc, rest)
  | fuel + 1, acc, rest =>
    if (rest.takeWhile isPySpace).isEmpty then (acc, rest)
    else
      match takeCityWordBy first (rest.drop (rest.takeWhile isPySpace).length) with
      | none => (acc, rest)
      | some (w, rest2) =>
        cityLoopAux first fuel (acc ++ rest.takeWhile isPySpace ++ w) rest2

/-- The full city capture `<word>(?:\s+<word>)*` at the current position. -/
def takeCityPhraseBy (first : Char → Bool) (l : List Char) : Option (List Char × List Char) :=
  match takeCityWordBy first l with
  | none => none
  | some (w, rest) => some (cityLoopAux first rest.length w rest)

/-- `re.search` for a capturing pattern: try every position left to right. -/
def searchOpt (f : List Char → Bool → Option (List Char)) :
    List Char → Bool → Option (List Char)
  | [], prev => f [] prev
  | c :: rest, prev =>
    match f (c :: rest) prev with
    | some r => some r
    | none => searchOpt f rest (isWordChar c)

/-- Match `(?:in|at)\s+<capture>` after the preposition's leading boundary. -/
def matchPrepCityVia (prep l : List Char) : Option (List Char) :=
  match dropPre prep l with
  | none => none
  | some rest =>
    if (rest.takeWhile isPySpace).isEmpty then none
    else
      match takeCityPhraseBy isUpperAZ (rest.drop (rest.takeWhile isPySpace).length) with
      | none => none
      | some (phrase, _) => some phrase

/-- Match `\b(?:in|at)\s+([A-Z][a-zA-Z\-\.’']+(?:\s+[A-Z][a-zA-Z\-\.’']+)*)`
at the current position.  Both alternatives start with a word character, so
the boundary holds exactly when the previous character is not a word
character. -/
def matchPrepCityAt (l : List Char) (prevIsWord : Bool) : Option (List Char) :=
  if prevIsWord then none
  else
    match matchPrepCityVia "in".toList l with
    | some c => some c
    | none => matchPrepCityVia "at".toList l

/-- Match `weather\s+in\s+([A-Z][a-zA-Z\-\.’']+(?:\s+[A-Z][a-zA-Z\-\.’']+)*)`
under `re.IGNORECASE` at the current position: the flag applies to the whole
pattern, so the literals compare case-insensitively and the class `[A-Z]`
admits any ASCII letter. -/
def matchWeatherInAt (l : List Char) (_prevIsWord : Bool) : Option (List Char) :=
  match dropPreCI "weather".toList l with
  | none => none
  | some r1 =>
    if (r1.takeWhile isPySpace).isEmpty then none
    else
      match dropPreCI "in".toList (r1.drop (r1.takeWhile isPySpace).length) with
      | none => none
      | some r2 =>
        if (r2.takeWhile isPySpace).isEmpty then none
        else
          match takeCityPhraseBy isAsciiLetter (r2.drop (r2.takeWhile isPySpace).length) with
          | none => none
          | some (phrase, _) => some phrase

/-- `str.strip(chars)` / `str.strip()`: drop characters of the class from both
ends. -/
def pyStripBy (p : Char → Bool) (l : List Char) : List Char :=
  ((l.dropWhile p).reverse.dropWhile p).reverse

/-- The strip set of `_extract_city` — the characters of `" .?!,;:"`. -/
def isStripChar (c : Char) : Bool :=
  c = ' ' || c = '.' || c = '?' || c = '!' || c = ',' || c = ';' || c = ':'

def stripPunct (l : List Char) : List Char := pyStripBy isStripChar l

def stripWs (l : List Char) : List Char := pyStripBy isPySpace l

/-- `re.findall` of the fallback capitalized-run pattern: non-overlapping
matches, scanning left to right.  The fuel dominates the number of scan
steps, each of which consumes at least one character. -/
def findAllCityRuns : Nat → List Char → List (List Char)
  | 0, _ => []
  | _, [] => []
  | fuel + 1, c :: rest =>
    match takeCityPhraseBy isUpperAZ (c :: rest) with
    | some (m, rest2) => m :: findAllCityRuns fuel rest2
    | none => findAllCityRuns fuel rest

/-- The first layer of `_extract_city`: the preposition pattern, with its
double strip. -/
def extractCityP1 (text : String) : Option String :=
  (searchOpt matchPrepCityAt text.toList false).map fun cap =>
    String.mk (stripWs (stripPunct cap))

/-- The second layer of `_extract_city`: the case-insensitive
`weather in` pattern, with its single strip. -/
def extractCityP2 (text : String) : Option String :=
  (searchOpt matchWeatherInAt text.toList false).map fun cap =>
    String.mk (stripPunct cap)

/-- The fallback layer of `_extract_city`: the last capitalized run, untrimmed. -/
def extractCityFallback (text : String) : Option String :=
  ((findAllCityRuns text.toList.length text.toList).getLast?).map String.mk

/-- `_extract_city(text)`. -/
def extractCity (text : String) : Option String :=
  match extractCityP1 text with
  | some c => some c
  | none =>
    match extractCityP2 text with
    | some c => some c
    | none => extractCityFallback text

/-! ### Rendering of numeric state fields

The numeric fields of a weather record are Python floats parsed from decimal
JSON literals; they are modelled as exact rationals and `str(float)` as the
shortest decimal rendering, which is what CPython prints for every such
value. -/

/-- Fractional digits of `rem/d`, most significant first, stopping at an
exact zero remainder (17 digits bound the shortest repr of a double). -/
def fracDigitsAux (d : Nat) : Nat → Nat → List Char
  | 0, _ => []
  | fuel + 1, rem =>
    if rem = 0 then []
    else Char.ofNat (48 + rem * 10 / d) :: fracDigitsAux d fuel (rem * 10 % d)

/-- `str` of a float-valued field: sign, integer part, a point, and either
the fractional digits or the mandatory single zero. -/
def pyFloatStr (q : ℚ) : String :=
  let sgn := if q.num < 0 then "-" else ""
  let n := q.num.natAbs
  let d := q.den
  let ds := fracDigitsAux d 17 (n % d)
  sgn ++ toString (n / d) ++ "." ++ (if ds.isEmpty then "0" else String.mk ds)

/-! ### Graph state and nodes (`nodes.py`, `graph.py`)

`GraphState` is a `TypedDict(total=False)`; a key that is absent and a key
holding `None` are indistinguishable to the nodes (which only use
`state.get`), so both are modelled as `none`.  The nodes are pure functions
of the state plus an oracle for the outcomes of the external collaborators
(weather HTTP API, vector store / embeddings / LLM pipeline). -/

/-- The weather dictionary built by `weather_node` from a successful fetch:
the fields of `WeatherResponse` that the graph consumes (the `raw` payload is
carried by the response but never read by any node). -/
structure WeatherData where
  city : String
  country : String
  temp : ℚ
  feels_like : ℚ
  description : String
  humidity : ℤ
  wind_speed : ℚ
deriving DecidableEq

/-- Modelled from the spec: `RetrievalResult` of the retrieval gateway
(`ai_rag_weather.rag.retriever`, not present under the sources): the query
and the ranked contexts, each a page number with its text.  `rag_node` only
stores this value, never inspects it. -/
structure RetrievalData where
  query : String
  contexts : List (Int × String)
deriving DecidableEq

structure GraphState where
  user_input : String
  intent : Option String
  weather : Option WeatherData
  retrieval : Option RetrievalData
  answer : Option String
deriving DecidableEq

/-- Python truthiness of the optional `answer` string: `None` and `""` are
falsy. -/
def truthyStr : Option String → Bool
  | none => false
  | some s => !s.isEmpty

/-- `router_node`: `state.get("intent") or _classify_intent(state["user_input"])` —
a `None` or empty intent is replaced by the classifier's verdict. -/
def routerNode (s : GraphState) : GraphState :=
  let i :=
    match s.intent with
    | some v => if v = "" then classifyIntent s.user_input else v
    | none => classifyIntent s.user_input
  { s with intent := some i }

/-- `route_intent`: `state.get("intent") or "doc_qa"`. -/
def routeIntent (s : GraphState) : String :=
  match s.intent with
  | some v => if v = "" then "doc_qa" else v
  | none => "doc_qa"

/-- A geocoding suggestion as used by `weather_node`: the `country` key may be
missing from the JSON dictionary. -/
structure CitySuggestion where
  name : String
  country : Option String
deriving DecidableEq

/-- Outcomes of the two `WeatherClient` calls, as the node observes them:
`fetch` yields an optional record and `search_cities` a list of suggestions —
neither ever raises, because the client catches every exception internally
(see `fetchBody`). -/
structure WeatherEnv where
  fetchResult : String → Option WeatherData
  searchResult : String → List CitySuggestion

/-- The ASCII apostrophe as a one-character string (used by the suggestion
message template). -/
def aposS : String := String.mk [apos]

/-- The suggestion list rendering of `weather_node`:
`", ".join(name + ", " + country-or-questionmark)`. -/
def sugText (l : List CitySuggestion) : String :=
  String.intercalate ", " (l.map fun s => s.name ++ ", " ++ s.country.getD "?")

def promptCityMsg : String :=
  "Please mention a city, e.g., “What’s the weather in Mumbai?”"

/-- `weather_node`. -/
def weatherNode (env : WeatherEnv) (s : GraphState) : GraphState :=
  match extractCity s.user_input with
  | none => { s with answer := some promptCityMsg }
  | some city =>
    if city = "" then { s with answer := some promptCityMsg }
    else
      match env.fetchResult city with
      | some w => { s with weather := some w }
      | none =>
        if (env.searchResult city).isEmpty then
          { s with answer := some ("Couldn’t fetch weather for " ++ city ++
              " or find similar cities. Check spelling or try another city.") }
        else
          { s with answer := some ("Couldn’t find " ++ aposS ++ city ++ aposS ++
              ". Did you mean one of these? " ++ sugText (env.searchResult city) ++
              ". Try again with a suggestion.") }

/-- Outcome of the body of `rag_node`'s `try` block — store construction,
embedding and LLM provider construction, `retrieve` and `summarize` — either
the retrieval result with the summarized answer, or the `str(e)` of whichever
exception was raised. -/
structure RagEnv where
  pipeline : String → Except String (RetrievalData × String)

/-- `rag_node`: a total function — every exception of the pipeline is caught
at the node boundary and converted into the warning-prefixed answer, with
`retrieval` explicitly reset to `None`. -/
def ragNode (env : RagEnv) (s : GraphState) : GraphState :=
  match env.pipeline s.user_input with
  | .ok (r, a) => { s with retrieval := some r, answer := some a }
  | .error e => { s with retrieval := none, answer := some ("⚠️ Retrieval step failed: " ++ e) }

/-- The synthesis template of `synthesis_node`. -/
def synthAnswer (w : WeatherData) : String :=
  w.city ++ ", " ++ w.country ++ ": " ++ w.description ++ ". Temp " ++
    pyFloatStr w.temp ++ "° (" ++ pyFloatStr w.feels_like ++ "° feels like). Humidity " ++
    toString w.humidity ++ "%, wind " ++ pyFloatStr w.wind_speed ++ " m/s."

/-- `synthesis_node`: compose the template iff `weather` is truthy (the node
only ever sees absent weather or a full seven-field dictionary, so truthiness
is presence) and `answer` is still falsy; otherwise pass the state through. -/
def synthesisNode (s : GraphState) : GraphState :=
  match s.weather with
  | some w => if truthyStr s.answer then s else { s with answer := some (synthAnswer w) }
  | none => s

/-- The oracle for one graph invocation's external calls. -/
structure Env where
  wenv : WeatherEnv
  renv : RagEnv

/-- The initial state of a run of the compiled graph on a user query. -/
def initialState (q : String) : GraphState :=
  { user_input := q, intent := none, weather := none, retrieval := none, answer := none }

/-- The compiled graph of `build_graph`: entry at `router`, the conditional
edge keyed by `route_intent` (`"weather"` to the weather node, `"doc_qa"` to
the rag node — the only two values the router can produce on a fresh state),
both branches converging on `synthesis`, then `END`. -/
def runGraph (env : Env) (q : String) : GraphState :=
  synthesisNode
    (if routeIntent (routerNode (initialState q)) = "weather" then
      weatherNode env.wenv (routerNode (initialState q))
    else ragNode env.renv (routerNode (initialState q)))

/-! ### WeatherClient.fetch and its retry decorator (`weather/client.py`)

`fetch` is modelled over a trace of per-attempt outcomes of the underlying
HTTP exchange.  The body's `try` block catches `httpx.HTTPStatusError` and
then every other `Exception` — the network errors named in `_network_errors`
included — so the wrapped function returns on every outcome and never raises. -/

/-- What one HTTP attempt would produce inside the `try` block. -/
inductive AttemptOutcome where
  /-- 2xx response whose JSON has all required fields: the parsed record. -/
  | ok (r : WeatherData)
  /-- One of `_network_errors`: `ConnectError`, `ReadTimeout`, `NetworkError`,
  `RemoteProtocolError`. -/
  | netErr
  /-- `raise_for_status` raised `HTTPStatusError` for a 4xx/5xx code. -/
  | httpStatusErr (code : Nat)
  /-- Any other exception (JSON decode error, missing field, ...). -/
  | otherExc (msg : String)
deriving DecidableEq

/-- Exceptions as the retry decorator classifies them. -/
inductive PyExn where
  | net
  | httpStatus (code : Nat)
  | other (msg : String)
deriving DecidableEq

/-- `retry_if_exception_type(_network_errors)`. -/
def isNetworkExn : PyExn → Bool
  | .net => true
  | _ => false

/-- The body of `fetch` on one attempt: a 2xx response yields the record;
`HTTPStatusError` is caught and logged, yielding `None`; every other
exception — the transient network errors included — is caught by the blanket
`except Exception`, also yielding `None`.  No outcome lets an exception
escape to the decorator. -/
def fetchBody : AttemptOutcome → Except PyExn (Option WeatherData)
  | .ok r => .ok (some r)
  | .netErr => .ok none
  | .httpStatusErr _ => .ok none
  | .otherExc _ => .ok none

/-- tenacity's `@retry(stop=stop_after_attempt(n), wait=wait_exponential(...),
retry=retry_if_exception_type(_network_errors), reraise=True)`: run the
wrapped function, retrying while it raises a network-classified exception and
attempts remain; once attempts are exhausted or a non-retryable exception is
raised, reraise it.  Returns the result together with the number of attempts
actually made.  (The exponential wait only affects timing, which the
embedding does not observe.) -/
def tenacityRun (f : AttemptOutcome → Except PyExn (Option WeatherData)) :
    Nat → List AttemptOutcome → Except PyExn (Option WeatherData) × Nat
  | _, [] => (.error (.other "trace exhausted"), 0)
  | 0, _ :: _ => (.error (.other "no attempts allowed"), 0)
  | 1, o :: _ => (f o, 1)
  | n + 2, o :: rest =>
    match f o with
    | .ok v => (.ok v, 1)
    | .error e =>
      if isNetworkExn e then
        let r := tenacityRun f (n + 1) rest
        (r.1, r.2 + 1)
      else (.error e, 1)

/-- `WeatherClient.fetch` under its decorator, on a trace of attempt
outcomes: the result, and how many attempts were made. -/
def fetchModel (trace : List AttemptOutcome) : Except PyExn (Option WeatherData) × Nat :=
  tenacityRun fetchBody 3 trace

/-- Modelled from the spec: the retry behaviour the specification describes
for `fetch` — up to 3 attempts, retrying (with backoff) only on transient
network errors and returning no record once they are exhausted; a 4xx/5xx
status is never retried and immediately yields no record; success yields the
record. -/
def fetchClaimed : Nat → List AttemptOutcome → Option WeatherData
  | 0, _ => none
  | _, [] => none
  | n + 1, o :: rest =>
    match o with
    | .ok r => some r
    | .netErr => fetchClaimed n rest
    | .httpStatusErr _ => none
    | .otherExc _ => none

/-- A concrete weather record used by several concrete evaluations: the
record of the specification's golden-output test. -/
def sampleWeather : WeatherData :=
  ⟨"Hyderabad", "IN", mkRat 28 1, mkRat 3041 100, "overcast clouds", 68, mkRat 358 100⟩

/-! ### Helper lemmas -/

theorem ratioGeThreshold_iff (a b : List Char) :
    ratioGeThreshold a b = true ↔ fuzzyThreshold ≤ smRatio a b := by
  unfold ratioGeThreshold smRatio fuzzyThreshold
  by_cases hT : a.length + b.length = 0
  · simp only [hT, if_true, if_pos rfl]
    norm_num
  · have hpos : 0 < a.length + b.length := Nat.pos_of_ne_zero hT
    have hposQ : (0 : ℚ) < ((a.length : ℚ) + (b.length : ℚ)) := by
      have := Nat.cast_pos (α := ℚ) |>.mpr hpos
      push_cast at this ⊢
      linarith
    simp only [hT, if_false, decide_eq_true_eq]
    rw [div_le_div_iff₀ (by norm_num) hposQ]
    constructor
    · intro h
      have h' : ((17 * (a.length + b.length) : ℕ) : ℚ) ≤ ((40 * matchingTotal a b : ℕ) : ℚ) :=
        Nat.cast_le.mpr h
      push_cast at h'
      linarith
    · intro h
      have h' : ((17 * (a.length + b.length) : ℕ) : ℚ) ≤ ((40 * matchingTotal a b : ℕ) : ℚ) := by
        push_cast
        linarith
      exact_mod_cast h'

theorem char_ofNat_toNat_of_shift (n : Nat) (h1 : 65 ≤ n) (h2 : n ≤ 90) :
    (Char.ofNat (n + 32)).toNat = n + 32 := by
  interval_cases n <;> decide

theorem char_toLower_idem (c : Char) : c.toLower.toLower = c.toLower := by
  by_cases h : c.toNat ≥ 65 ∧ c.toNat ≤ 90
  · have h1 : c.toLower = Char.ofNat (c.toNat + 32) := by
      unfold Char.toLower
      rw [if_pos h]
    have h2 := char_ofNat_toNat_of_shift c.toNat h.1 h.2
    rw [h1]
    unfold Char.toLower
    rw [if_neg]
    rw [h2]
    omega
  · have h1 : c.toLower = c := by
      unfold Char.toLower
      rw [if_neg h]
    rw [h1, h1]

theorem pyLower_idem (l : List Char) : pyLower (pyLower l) = pyLower l := by
  induction l with
  | nil => rfl
  | cons c t ih =>
    simp only [pyLower, List.map_cons] at ih ⊢
    rw [char_toLower_idem]
    exact congrArg _ ih

theorem classifyIntent_ne_empty (t : String) : classifyIntent t ≠ "" := by
  unfold classifyIntent
  split
  · decide
  · split <;> decide

theorem string_append_ne_empty_left (a b : String) (ha : a ≠ "") : a ++ b ≠ "" := by
  intro h
  apply ha
  have hl := congrArg String.length h
  rw [String.length_append] at hl
  have h0 : ("" : String).length = 0 := rfl
  rw [h0] at hl
  have : a.length = 0 := by omega
  exact String.ext (List.length_eq_zero.mp this)

theorem takeCityWordBy_some (first : Char → Bool) {l w r : List Char}
    (h : takeCityWordBy first l = some (w, r)) :
    ∃ c run, w = c :: run ∧ first c = true ∧ run ≠ [] := by
  cases l with
  | nil => simp [takeCityWordBy] at h
  | cons c rest =>
    simp only [takeCityWordBy] at h
    by_cases hc : first c = true
    · rw [if_pos hc] at h
      by_cases he : (rest.takeWhile isCityChar).isEmpty = true
      · rw [if_pos he] at h
        exact absurd h (by simp)
      · rw [if_neg he] at h
        refine ⟨c, rest.takeWhile isCityChar, ?_, hc, ?_⟩
        · exact (congrArg Prod.fst (Option.some.inj h)).symm
        · intro hrun
          rw [hrun] at he
          exact he rfl
    · rw [if_neg hc] at h
      exact absurd h (by simp)

theorem cityLoopAux_acc (first : Char → Bool) (fuel : Nat) :
    ∀ acc rest, ∃ suf, (cityLoopAux first fuel acc rest).1 = acc ++ suf := by
  induction fuel with
  | zero =>
    intro acc rest
    exact ⟨[], by simp [cityLoopAux]⟩
  | succ n ih =>
    intro acc rest
    simp only [cityLoopAux]
    by_cases hw : (rest.takeWhile isPySpace).isEmpty = true
    · rw [if_pos hw]
      exact ⟨[], by simp⟩
    · rw [if_neg hw]
      cases htw : takeCityWordBy first (rest.drop (rest.takeWhile isPySpace).length) with
      | none => exact ⟨[], by simp⟩
      | some p =>
        obtain ⟨w, rest2⟩ := p
        obtain ⟨suf, hs⟩ := ih (acc ++ rest.takeWhile isPySpace ++ w) rest2
        exact ⟨rest.takeWhile isPySpace ++ w ++ suf, by rw [hs]; simp [List.append_assoc]⟩

theorem takeCityPhraseBy_some (first : Char → Bool) {l ph r : List Char}
    (h : takeCityPhraseBy first l = some (ph, r)) :
    ∃ c t, ph = c :: t ∧ first c = true ∧ 2 ≤ ph.length := by
  unfold takeCityPhraseBy at h
  cases hw : takeCityWordBy first l with
  | none =>
    rw [hw] at h
    exact absurd h (by simp)
  | some p =>
    obtain ⟨w, rest⟩ := p
    rw [hw] at h
    obtain ⟨c, run, hwd, hc, hrun⟩ := takeCityWordBy_some first hw
    obtain ⟨suf, hs⟩ := cityLoopAux_acc first rest.length w rest
    have hph : ph = (cityLoopAux first rest.length w rest).1 :=
      (congrArg Prod.fst (Option.some.inj h)).symm
    rw [hph, hs, hwd]
    refine ⟨c, run ++ suf, by simp, hc, ?_⟩
    have h1 : 1 ≤ run.length := by
      cases run with
      | nil => exact absurd rfl hrun
      | cons a t => simp [List.length_cons]
    simp only [List.length_append, List.length_cons, List.cons_append]
    omega

theorem searchOpt_some (f : List Char → Bool → Option (List Char)) :
    ∀ l prev r, searchOpt f l prev = some r → ∃ l2 p2, f l2 p2 = some r := by
  intro l
  induction l with
  | nil =>
    intro prev r h
    exact ⟨[], prev, by simpa [searchOpt] using h⟩
  | cons c rest ih =>
    intro prev r h
    simp only [searchOpt] at h
    cases hf : f (c :: rest) prev with
    | some v =>
      rw [hf] at h
      exact ⟨c :: rest, prev, by rw [hf, Option.some.inj h]⟩
    | none =>
      rw [hf] at h
      exact ih (isWordChar c) r h

theorem matchPrepCityVia_some {prep l cap : List Char}
    (h : matchPrepCityVia prep l = some cap) :
    ∃ l2 r, takeCityPhraseBy isUpperAZ l2 = some (cap, r) := by
  unfold matchPrepCityVia at h
  cases hd : dropPre prep l with
  | none =>
    rw [hd] at h
    exact absurd h (by simp)
  | some rest =>
    rw [hd] at h
    dsimp only at h
    by_cases hw : (rest.takeWhile isPySpace).isEmpty = true
    · rw [if_pos hw] at h
      exact absurd h (by simp)
    · rw [if_neg hw] at h
      cases hp : takeCityPhraseBy isUpperAZ (rest.drop (rest.takeWhile isPySpace).length) with
      | none =>
        rw [hp] at h
        exact absurd h (by simp)
      | some p =>
        obtain ⟨phrase, r2⟩ := p
        rw [hp] at h
        exact ⟨_, _, by rw [hp, Option.some.inj h]⟩

theorem matchPrepCityAt_some {l cap : List Char} {prev : Bool}
    (h : matchPrepCityAt l prev = some cap) :
    ∃ l2 r, takeCityPhraseBy isUpperAZ l2 = some (cap, r) := by
  unfold matchPrepCityAt at h
  by_cases hp : prev = true
  · rw [if_pos hp] at h
    exact absurd h (by simp)
  · rw [if_neg hp] at h
    cases hin : matchPrepCityVia "in".toList l with
    | some v =>
      rw [hin] at h
      exact Option.some.inj h ▸ matchPrepCityVia_some hin
    | none =>
      rw [hin] at h
      exact matchPrepCityVia_some h

theorem matchWeatherInAt_some {l cap : List Char} {prev : Bool}
    (h : matchWeatherInAt l prev = some cap) :
    ∃ l2 r, takeCityPhraseBy isAsciiLetter l2 = some (cap, r) := by
  unfold matchWeatherInAt at h
  cases h1 : dropPreCI "weather".toList l with
  | none =>
    rw [h1] at h
    exact absurd h (by simp)
  | some r1 =>
    rw [h1] at h
    dsimp only at h
    by_cases hw1 : (r1.takeWhile isPySpace).isEmpty = true
    · rw [if_pos hw1] at h
      exact absurd h (by simp)
    · rw [if_neg hw1] at h
      cases h2 : dropPreCI "in".toList (r1.drop (r1.takeWhile isPySpace).length) with
      | none =>
        rw [h2] at h
        exact absurd h (by simp)
      | some r2 =>
        rw [h2] at h
        dsimp only at h
        by_cases hw2 : (r2.takeWhile isPySpace).isEmpty = true
        · rw [if_pos hw2] at h
          exact absurd h (by simp)
        · rw [if_neg hw2] at h
          cases h3 : takeCityPhraseBy isAsciiLetter (r2.drop (r2.takeWhile isPySpace).length) with
          | none =>
            rw [h3] at h
            exact absurd h (by simp)
          | some p =>
            obtain ⟨phrase, r3⟩ := p
            rw [h3] at h
            exact ⟨_, _, by rw [h3, Option.some.inj h]⟩

theorem dropWhile_append_last (p : Char → Bool) (l : List Char) (h : Char)
    (hh : p h = false) : ∃ pre, (l ++ [h]).dropWhile p = pre ++ [h] := by
  induction l with
  | nil => exact ⟨[], by simp [List.dropWhile, hh]⟩
  | cons a t ih =>
    by_cases ha : p a = true
    · obtain ⟨pre, hp⟩ := ih
      exact ⟨pre, by simp [List.dropWhile_cons, ha, hp]⟩
    · exact ⟨a :: t, by simp [List.dropWhile_cons, ha]⟩

theorem pyStripBy_cons_of_neg (p : Char → Bool) (h : Char) (t : List Char)
    (hh : p h = false) : ∃ t2, pyStripBy p (h :: t) = h :: t2 := by
  unfold pyStripBy
  rw [List.dropWhile_cons, if_neg (by simp [hh]), List.reverse_cons]
  obtain ⟨pre, hp⟩ := dropWhile_append_last p t.reverse h hh
  exact ⟨pre.reverse, by rw [hp]; simp⟩

theorem findAllCityRuns_mem (fuel : Nat) :
    ∀ l m, m ∈ findAllCityRuns fuel l →
      ∃ c t, m = c :: t ∧ isUpperAZ c = true ∧ 2 ≤ m.length := by
  induction fuel with
  | zero =>
    intro l m h
    simp [findAllCityRuns] at h
  | succ n ih =>
    intro l m h
    cases l with
    | nil => simp [findAllCityRuns] at h
    | cons c rest =>
      simp only [findAllCityRuns] at h
      cases hp : takeCityPhraseBy isUpperAZ (c :: rest) with
      | some p =>
        obtain ⟨w, rest2⟩ := p
        rw [hp] at h
        rcases List.mem_cons.mp h with h1 | h2
        · obtain ⟨c2, t2, hw, hc, hlen⟩ := takeCityPhraseBy_some _ hp
          exact ⟨c2, t2, h1 ▸ hw, hc, h1 ▸ hlen⟩
        · exact ih rest2 m h2
      | none =>
        rw [hp] at h
        exact ih rest m h

theorem stringMk_ne_empty (c : Char) (t : List Char) : String.mk (c :: t) ≠ "" := by
  intro h
  have h2 : (String.mk (c :: t)).data = ("" : String).data := congrArg _ h
  exact List.noConfusion h2

theorem upperAZ_not_strip (c : Char) (h : isUpperAZ c = true) : isStripChar c = false := by
  cases hc : isStripChar c with
  | false => rfl
  | true =>
    exfalso
    simp only [isStripChar, Bool.or_eq_true, decide_eq_true_eq] at hc
    rcases hc with ((((((h1 | h1) | h1) | h1) | h1) | h1) | h1) <;> subst h1 <;>
      exact absurd h (by decide)

theorem upperAZ_not_space (c : Char) (h : isUpperAZ c = true) : isPySpace c = false := by
  cases hc : isPySpace c with
  | false => rfl
  | true =>
    exfalso
    simp only [isPySpace, Bool.or_eq_true, decide_eq_true_eq] at hc
    rcases hc with (((((h1 | h1) | h1) | h1) | h1) | h1) <;> subst h1 <;>
      exact absurd h (by decide)

theorem asciiLetter_not_strip (c : Char) (h : isAsciiLetter c = true) :
    isStripChar c = false := by
  cases hc : isStripChar c with
  | false => rfl
  | true =>
    exfalso
    simp only [isStripChar, Bool.or_eq_true, decide_eq_true_eq] at hc
    rcases hc with ((((((h1 | h1) | h1) | h1) | h1) | h1) | h1) <;> subst h1 <;>
      exact absurd h (by decide)

theorem extractCityP1_head {s c : String} (h : extractCityP1 s = some c) :
    ∃ ch t, c = String.mk (ch :: t) ∧ isUpperAZ ch = true := by
  unfold extractCityP1 at h
  cases hs : searchOpt matchPrepCityAt s.toList false with
  | none =>
    rw [hs] at h
    exact absurd h (by simp)
  | some cap =>
    rw [hs] at h
    simp only [Option.map_some'] at h
    obtain ⟨l2, p2, hf⟩ := searchOpt_some _ _ _ _ hs
    obtain ⟨l3, r3, hph⟩ := matchPrepCityAt_some hf
    obtain ⟨ch, t, hcap, hch, _⟩ := takeCityPhraseBy_some _ hph
    subst hcap
    obtain ⟨t1, h1⟩ := pyStripBy_cons_of_neg _ ch t (upperAZ_not_strip ch hch)
    obtain ⟨t2, h2⟩ := pyStripBy_cons_of_neg _ ch t1 (upperAZ_not_space ch hch)
    refine ⟨ch, t2, ?_, hch⟩
    rw [← Option.some.inj h]
    unfold stripWs stripPunct
    rw [h1, h2]

theorem extractCityP2_head {s c : String} (h : extractCityP2 s = some c) :
    ∃ ch t, c = String.mk (ch :: t) ∧ isAsciiLetter ch = true := by
  unfold extractCityP2 at h
  cases hs : searchOpt matchWeatherInAt s.toList false with
  | none =>
    rw [hs] at h
    exact absurd h (by simp)
  | some cap =>
    rw [hs] at h
    simp only [Option.map_some'] at h
    obtain ⟨l2, p2, hf⟩ := searchOpt_some _ _ _ _ hs
    obtain ⟨l3, r3, hph⟩ := matchWeatherInAt_some hf
    obtain ⟨ch, t, hcap, hch, _⟩ := takeCityPhraseBy_some _ hph
    subst hcap
    obtain ⟨t1, h1⟩ := pyStripBy_cons_of_neg _ ch t (asciiLetter_not_strip ch hch)
    refine ⟨ch, t1, ?_, hch⟩
    rw [← Option.some.inj h]
    unfold stripPunct
    rw [h1]

/-! ### Claim theorems -/

/-- Claim C1 (code_bug evidence): the transient-network retry of
`WeatherClient.fetch` never happens.  On a trace whose first attempt raises a
transient network error and whose second attempt would succeed, the code
returns no record after a single attempt — the body's blanket
`except Exception` swallows the network error before the tenacity decorator
can observe it — whereas the claimed policy (up to 3 attempts with backoff on
transient network errors) would return the record on the second attempt. -/
theorem c1_fetch_retry_is_dead_code :
    fetchModel [AttemptOutcome.netErr, AttemptOutcome.ok sampleWeather] =
      (Except.ok none, 1) ∧
    fetchClaimed 3 [AttemptOutcome.netErr, AttemptOutcome.ok sampleWeather] =
      some sampleWeather ∧
    fetchModel [AttemptOutcome.httpStatusErr 404] = (Except.ok none, 1) :=
  ⟨rfl, rfl, rfl⟩

/-- Claim C3: intent classification is total and pure: for every input it
returns `"weather"` exactly when some whitespace token of the lowercased
input reaches similarity ratio `0.85` against some weather keyword, or the
regex fallback matches the lowercased input; in every other case it returns
`"doc_qa"`, and no other value ever. -/
theorem c3_classify_intent_total (t : String) :
    (classifyIntent t = "weather" ∨ classifyIntent t = "doc_qa") ∧
    (classifyIntent t = "weather" ↔
      ((∃ w ∈ pySplit (pyLower t.toList), ∃ kw ∈ weatherHints,
          fuzzyThreshold ≤ smRatio w kw) ∨
        regexWeatherSearch (pyLower t.toList) = true)) := by
  have hfc : fuzzyContains (pyLower t.toList) weatherHints = true ↔
      (∃ w ∈ pySplit (pyLower t.toList), ∃ kw ∈ weatherHints,
        fuzzyThreshold ≤ smRatio w kw) := by
    unfold fuzzyContains
    rw [pyLower_idem]
    simp only [List.any_eq_true, ratioGeThreshold_iff]
  unfold classifyIntent
  by_cases h1 : fuzzyContains (pyLower t.toList) weatherHints = true
  · rw [if_pos h1]
    refine ⟨Or.inl rfl, ?_⟩
    constructor
    · intro _
      exact Or.inl (hfc.mp h1)
    · intro _
      rfl
  · rw [if_neg h1]
    by_cases h2 : regexWeatherSearch (pyLower t.toList) = true
    · rw [if_pos h2]
      refine ⟨Or.inl rfl, ?_⟩
      constructor
      · intro _
        exact Or.inr h2
      · intro _
        rfl
    · rw [if_neg h2]
      refine ⟨Or.inr rfl, ?_⟩
      constructor
      · intro h
        exact absurd h (by decide)
      · rintro (h | h)
        · exact absurd (hfc.mpr h) h1
        · exact absurd h h2

/-- Claim C4: on the golden-output state — the Hyderabad weather record with
no prior answer — the synthesis node produces exactly the specified sentence,
character for character. -/
theorem c4_synthesis_golden_output :
    (synthesisNode ⟨"What is the weather in Hyderabad", some "weather",
        some sampleWeather, none, none⟩).answer =
      some "Hyderabad, IN: overcast clouds. Temp 28.0° (30.41° feels like). Humidity 68%, wind 3.58 m/s." := by
  decide

/-- Claim C6: whatever outcome the retrieval pipeline has, `rag_node` returns
normally: a pipeline exception is caught and converted into the
warning-prefixed answer with `retrieval` left unpopulated, and a pipeline
success populates both `retrieval` and `answer`.  (The node is a total
function of the pipeline outcome — no exception propagates.) -/
theorem c6_rag_node_catches_all (env : RagEnv) (s : GraphState) :
    (∀ e, env.pipeline s.user_input = Except.error e →
      ragNode env s =
        { s with retrieval := none, answer := some ("⚠️ Retrieval step failed: " ++ e) }) ∧
    (∀ r a, env.pipeline s.user_input = Except.ok (r, a) →
      ragNode env s = { s with retrieval := some r, answer := some a }) := by
  constructor
  · intro e he
    unfold ragNode
    rw [he]
  · intro r a ha
    unfold ragNode
    rw [ha]

/-- Witness for C6 at a concrete failing pipeline and the fresh state of a
query. -/
theorem c6_rag_node_catches_all_witness :
    ragNode ⟨fun _ => Except.error "boom"⟩ (initialState "q") =
      { (initialState "q") with
        retrieval := none
        answer := some ("⚠️ Retrieval step failed: " ++ "boom") } :=
  (c6_rag_node_catches_all ⟨fun _ => Except.error "boom"⟩ (initialState "q")).1 "boom" rfl

/-- Claim C7: the synthesis node only ever touches `answer`: `user_input`,
`intent`, `weather` and `retrieval` always pass through unchanged, and a
state whose answer is already truthy (non-empty) passes through entirely
unchanged. -/
theorem c7_synthesis_frame (s : GraphState) :
    (synthesisNode s).user_input = s.user_input ∧
    (synthesisNode s).intent = s.intent ∧
    (synthesisNode s).weather = s.weather ∧
    (synthesisNode s).retrieval = s.retrieval ∧
    (truthyStr s.answer = true → synthesisNode s = s) := by
  unfold synthesisNode
  cases hw : s.weather with
  | none => simp [hw]
  | some w =>
    by_cases ha : truthyStr s.answer = true
    · simp [hw, ha]
    · simp [hw, ha]

/-- Witness for C7 at a concrete state with a non-empty answer. -/
theorem c7_synthesis_frame_witness :
    synthesisNode ⟨"q", some "weather", some sampleWeather, none, some "done"⟩ =
      ⟨"q", some "weather", some sampleWeather, none, some "done"⟩ :=
  (c7_synthesis_frame ⟨"q", some "weather", some sampleWeather, none, some "done"⟩).2.2.2.2
    (by decide)

/-- Claim C10: the router node is idempotent: running it a second time leaves
the state fixed, because the first run always installs a non-empty intent
(either the caller's truthy intent or the classifier's verdict, which is
never empty). -/
theorem c10_router_idempotent (s : GraphState) :
    routerNode (routerNode s) = routerNode s := by
  unfold routerNode
  cases hs : s.intent with
  | none => simp [classifyIntent_ne_empty s.user_input]
  | some v =>
    by_cases hv : v = ""
    · simp [hv, classifyIntent_ne_empty s.user_input]
    · simp [hv]

/-- Claim C5 (counterexample): on the input whose result the claim describes
as nothing, `_extract_city` in fact returns the sentence-initial capitalized
run `"No"` — the fallback layer matches it, exactly as the claim's own
description of the fallback predicts. -/
theorem c5_no_city_counterexample :
    extractCity "No city mentioned" = some "No" ∧
    ¬ extractCity "No city mentioned" = none := by
  constructor
  · decide
  · decide

/-- Claim C5 (amended): the first two examples hold; on "No city mentioned"
the extractor returns `"No"`, the last capitalized run; nothing is returned
exactly when no capitalized run exists at all. -/
theorem c5_extract_city_examples :
    extractCity "What is the weather in Hyderabad today" = some "Hyderabad" ∧
    extractCity "Weather in New York tomorrow" = some "New York" ∧
    extractCity "No city mentioned" = some "No" ∧
    (∀ s, extractCity s = none → findAllCityRuns s.toList.length s.toList = []) := by
  refine ⟨by decide, by decide, by decide, ?_⟩
  intro s h
  unfold extractCity at h
  cases h1 : extractCityP1 s with
  | some v =>
    rw [h1] at h
    exact absurd h (by simp)
  | none =>
    rw [h1] at h
    dsimp only at h
    cases h2 : extractCityP2 s with
    | some v =>
      rw [h2] at h
      exact absurd h (by simp)
    | none =>
      rw [h2] at h
      dsimp only at h
      unfold extractCityFallback at h
      cases hg : (findAllCityRuns s.toList.length s.toList).getLast? with
      | some m =>
        rw [hg] at h
        exact absurd h (by simp)
      | none => exact List.getLast?_eq_none_iff.mp hg

/-- Witness for the amended C5 at an input with no capitalized run. -/
theorem c5_extract_city_examples_witness :
    findAllCityRuns ("no city here".toList.length) "no city here".toList = [] :=
  c5_extract_city_examples.2.2.2 "no city here" (by decide)

/-- Claim C8 (counterexample): on `"weather in paris"` the preposition layer
fails, the secondary `weather in` pattern matches, and its capture is the
lowercase `"paris"` — the `re.I` flag covers the capture's `[A-Z]` class too,
so the produced city need not start with an uppercase letter. -/
theorem c8_ci_capture_counterexample :
    extractCityP2 "weather in paris" = some "paris" ∧
    extractCityP1 "weather in paris" = none ∧
    extractCity "weather in paris" = some "paris" ∧
    isUpperAZ 'p' = false := by
  refine ⟨by decide, by decide, by decide, by decide⟩

/-- Claim C8 (amended): the `weather in` prefix of the secondary pattern is
matched case-insensitively, and so is the capture — the `re.I` flag covers
the whole pattern — so every city string it produces begins with an ASCII
letter of either case. -/
theorem c8_weather_in_pattern_ci :
    (∀ s c, extractCityP2 s = some c →
      ∃ ch t, c.toList = ch :: t ∧ isAsciiLetter ch = true) ∧
    extractCityP2 "WEATHER IN Tokyo" = some "Tokyo" ∧
    extractCityP2 "Weather in Tokyo" = some "Tokyo" := by
  refine ⟨?_, by decide, by decide⟩
  intro s c h
  obtain ⟨ch, t, hc, hch⟩ := extractCityP2_head h
  exact ⟨ch, t, by rw [hc]; rfl, hch⟩

/-- Witness for the amended C8 at the counterexample input. -/
theorem c8_weather_in_pattern_ci_witness :
    ∃ ch t, ("paris" : String).toList = ch :: t ∧ isAsciiLetter ch = true :=
  c8_weather_in_pattern_ci.1 "weather in paris" "paris" (by decide)

/-- Claim C9: whenever `_extract_city` returns a value it is a non-empty
string — the stripped preposition- or `weather in`-captures keep their
leading letter, and the untrimmed fallback run has at least two characters. -/
theorem c9_extracted_city_nonempty :
    (∀ s c, extractCity s = some c → c ≠ "") ∧
    (∀ s c, extractCityFallback s = some c → 2 ≤ c.length) := by
  have hfallback : ∀ s c, extractCityFallback s = some c →
      (∃ ch t, c = String.mk (ch :: t)) ∧ 2 ≤ c.length := by
    intro s c h
    unfold extractCityFallback at h
    cases hg : (findAllCityRuns s.toList.length s.toList).getLast? with
    | none =>
      rw [hg] at h
      exact absurd h (by simp)
    | some m =>
      rw [hg] at h
      simp only [Option.map_some'] at h
      have hc := Option.some.inj h
      have hmem := List.mem_of_mem_getLast? hg
      obtain ⟨ch, t, hm, _, hlen⟩ := findAllCityRuns_mem _ _ m hmem
      subst hm
      constructor
      · exact ⟨ch, t, hc.symm⟩
      · rw [← hc]
        exact hlen
  constructor
  · intro s c h
    unfold extractCity at h
    cases h1 : extractCityP1 s with
    | some v =>
      rw [h1] at h
      dsimp only at h
      obtain ⟨ch, t, hv, _⟩ := extractCityP1_head h1
      rw [← Option.some.inj h, hv]
      exact stringMk_ne_empty ch t
    | none =>
      rw [h1] at h
      dsimp only at h
      cases h2 : extractCityP2 s with
      | some v =>
        rw [h2] at h
        dsimp only at h
        obtain ⟨ch, t, hv, _⟩ := extractCityP2_head h2
        rw [← Option.some.inj h, hv]
        exact stringMk_ne_empty ch t
      | none =>
        rw [h2] at h
        dsimp only at h
        obtain ⟨⟨ch, t, hm⟩, _⟩ := hfallback s c h
        rw [hm]
        exact stringMk_ne_empty ch t
  · intro s c h
    exact (hfallback s c h).2

/-- Witness for C9 at concrete preposition-layer and fallback-layer inputs. -/
theorem c9_extracted_city_nonempty_witness :
    ("Hyderabad" : String) ≠ "" ∧ 2 ≤ ("No" : String).length :=
  ⟨c9_extracted_city_nonempty.1 "What is the weather in Hyderabad today" "Hyderabad" (by decide),
   c9_extracted_city_nonempty.2 "No city mentioned" "No" (by decide)⟩

theorem synthAnswer_ne_empty (w : WeatherData) : synthAnswer w ≠ "" := by
  intro hcontra
  have hl := congrArg String.length hcontra
  simp only [synthAnswer, String.length_append] at hl
  have hx : (", " : String).length = 2 := rfl
  have h0 : ("" : String).length = 0 := rfl
  rw [hx, h0] at hl
  omega

/-- Claim C2 (counterexample): for the query `"weather"` — classified to the
weather branch but containing no extractable city — the terminal state of the
compiled graph has NEITHER `weather` NOR `retrieval` populated, refuting the
"exactly one of the two is populated" invariant. -/
theorem c2_neither_field_counterexample :
    (runGraph ⟨⟨fun _ => none, fun _ => []⟩, ⟨fun _ => Except.error "down"⟩⟩
        "weather").weather = none ∧
    (runGraph ⟨⟨fun _ => none, fun _ => []⟩, ⟨fun _ => Except.error "down"⟩⟩
        "weather").retrieval = none ∧
    (runGraph ⟨⟨fun _ => none, fun _ => []⟩, ⟨fun _ => Except.error "down"⟩⟩
        "weather").answer = some promptCityMsg := by
  refine ⟨by decide, by decide, by decide⟩

/-- Claim C2 (amended): on every run of the compiled graph, at most one of
`weather`/`retrieval` is populated — never both — and the terminal `answer`
is populated and non-empty, provided the summarizer's output is non-empty on
the retrieval-success path (on every failure path, including the paths where
neither field is populated, the answer is one of the non-empty built-in
messages). -/
theorem c2_run_invariant (env : Env) (q : String)
    (h : ∀ r a, env.renv.pipeline q = Except.ok (r, a) → a ≠ "") :
    ((runGraph env q).weather = none ∨ (runGraph env q).retrieval = none) ∧
    (∃ a, (runGraph env q).answer = some a ∧ a ≠ "") := by
  have hs1 : routerNode (initialState q) = ⟨q, some (classifyIntent q), none, none, none⟩ := by
    rfl
  have hroute : routeIntent (⟨q, some (classifyIntent q), none, none, none⟩ : GraphState) =
      classifyIntent q := by
    unfold routeIntent
    dsimp only
    rw [if_neg (classifyIntent_ne_empty q)]
  unfold runGraph
  rw [hs1, hroute]
  by_cases hcl : classifyIntent q = "weather"
  · rw [if_pos hcl]
    unfold weatherNode
    dsimp only
    cases hec : extractCity q with
    | none =>
      dsimp only
      exact ⟨Or.inl rfl, promptCityMsg, rfl, by decide⟩
    | some city =>
      dsimp only
      by_cases hce : city = ""
      · rw [if_pos hce]
        exact ⟨Or.inl rfl, promptCityMsg, rfl, by decide⟩
      · rw [if_neg hce]
        cases hf : env.wenv.fetchResult city with
        | some w =>
          dsimp only
          exact ⟨Or.inr rfl, synthAnswer w, rfl, synthAnswer_ne_empty w⟩
        | none =>
          dsimp only
          by_cases hsg : (env.wenv.searchResult city).isEmpty = true
          · rw [if_pos hsg]
            refine ⟨Or.inl rfl, _, rfl, ?_⟩
            exact string_append_ne_empty_left _ _
              (string_append_ne_empty_left _ _ (by decide))
          · rw [if_neg hsg]
            refine ⟨Or.inl rfl, _, rfl, ?_⟩
            exact string_append_ne_empty_left _ _
              (string_append_ne_empty_left _ _
                (string_append_ne_empty_left _ _
                  (string_append_ne_empty_left _ _
                    (string_append_ne_empty_left _ _ (by decide)))))
  · rw [if_neg hcl]
    unfold ragNode
    dsimp only
    cases hp : env.renv.pipeline q with
    | ok pr =>
      obtain ⟨r, a⟩ := pr
      dsimp only
      exact ⟨Or.inl rfl, a, rfl, h r a hp⟩
    | error e =>
      dsimp only
      exact ⟨Or.inl rfl, _, rfl, string_append_ne_empty_left _ _ (by decide)⟩

/-- Witness for the amended C2 at a concrete environment whose retrieval
pipeline fails, on the counterexample query. -/
theorem c2_run_invariant_witness :
    ((runGraph ⟨⟨fun _ => none, fun _ => []⟩, ⟨fun _ => Except.error "down"⟩⟩
        "weather").weather = none ∨
      (runGraph ⟨⟨fun _ => none, fun _ => []⟩, ⟨fun _ => Except.error "down"⟩⟩
        "weather").retrieval = none) ∧
    (∃ a, (runGraph ⟨⟨fun _ => none, fun _ => []⟩, ⟨fun _ => Except.error "down"⟩⟩
        "weather").answer = some a ∧ a ≠ "") :=
  c2_run_invariant ⟨⟨fun _ => none, fun _ => []⟩, ⟨fun _ => Except.error "down"⟩⟩ "weather"
    (fun _ _ hra => Except.noConfusion hra)

end RagWeatherBot
